import Mathlib

/-!
Shallow embedding of src/generate_invites.py (batch invitation generator).

The script reads guest names from a text file, replaces the placeholder
token in a PowerPoint template slide with each name, converts each
per-guest document to an image with an external converter (LibreOffice),
and finally archives the output directory with an external zip binary.

Pure text manipulation (placeholder replacement, stripping, filename
derivation) is embedded as pure functions on String / List Char.
The effectful pipeline (create_invites, save_and_convert, compress_files,
the top-level script block) is embedded as explicit state passing over a
record of filesystem/console effects, with the behaviour of the external
world (presence of binaries, exit codes of subprocess invocations,
contents of input files) given by an environment record.
-/

namespace InviteGen

/-! ## Text utilities -/

/-- Python's str.replace(PLACEHOLDER, name) on the character list of the
string, specialised to the two-character placeholder PLACEHOLDER = "\x7b\x7d"
(source line 30): scans left to right and replaces every non-overlapping
occurrence, without rescanning the inserted replacement. -/
def replaceAllChars (name : List Char) : List Char → List Char
  | '\x7b' :: '\x7d' :: rest => name ++ replaceAllChars name rest
  | c :: rest => c :: replaceAllChars name rest
  | [] => []

/-- Python's membership test PLACEHOLDER in text, specialised to the
two-character placeholder "\x7b\x7d". -/
def containsPHChars : List Char → Bool
  | '\x7b' :: '\x7d' :: _ => true
  | _ :: rest => containsPHChars rest
  | [] => false

/-- String-level wrapper for text.replace("\x7b\x7d", name). -/
def pyReplaceAll (name s : String) : String := ⟨replaceAllChars name.data s.data⟩

/-- String-level wrapper for the substring test "\x7b\x7d" in s. -/
def containsPH (s : String) : Bool := containsPHChars s.data

/-- Python's str.strip() on a character list: drop whitespace from both
ends (whitespace modelled by Char.isWhitespace). -/
def stripChars (l : List Char) : List Char :=
  ((l.dropWhile Char.isWhitespace).reverse.dropWhile Char.isWhitespace).reverse

/-- String-level wrapper for name.strip(). -/
def pyStrip (s : String) : String := ⟨stripChars s.data⟩

/-- Python's name.replace(' ', '-'): every space becomes a dash
(source line 109). -/
def replaceSpaces (name : String) : String :=
  ⟨name.data.map (fun c => if c = ' ' then '-' else c)⟩

/-! ## Constants (source lines 25-33) -/

/-- PLACEHOLDER = "\x7b\x7d" (source line 30). -/
def PLACEHOLDER : String := "\x7b\x7d"

/-- FONT_NAME = "2 Davat" (source line 32). -/
def FONT_NAME : String := "2 Davat"

/-- FONT_SIZE = Pt(36) (source line 33); python-pptx stores Pt(36) as the
EMU length 36 * 12700 = 457200. -/
def FONT_SIZE : Nat := 457200

/-! ## Slide data model (python-pptx objects reached by the script) -/

/-- A paragraph run: its text and the two font attributes the script
touches (None models an attribute the template leaves unset). -/
structure Run where
  text : String
  fontName : Option String
  fontSize : Option Nat
deriving DecidableEq, Repr

/-- A paragraph is its list of runs. -/
abbrev Paragraph := List Run

/-- A shape: none models has_text_frame = False, some frame a shape whose
text frame holds the given paragraphs. -/
abbrev Shape := Option (List Paragraph)

/-- A slide is its list of shapes. -/
abbrev Slide := List Shape

/-- The filename of the per-guest document (source line 109):
the fixed Persian label prefix, the guest name with spaces replaced by
dashes, and the .pptx extension. -/
def deriveFilename (name : String) : String :=
  "دعوت‌نامه-" ++ replaceSpaces name ++ ".pptx"

/-- replace_placeholder (source lines 54-67): for every shape with a text
frame, for every paragraph, for every run, if the run text contains the
placeholder, replace every occurrence with the guest name and set the
run's font name and size to the fixed constants; other runs and shapes
are untouched. -/
def replace_placeholder (slide : Slide) (name : String) : Slide :=
  slide.map fun shape =>
    match shape with
    | none => none
    | some frame => some (frame.map fun p => p.map fun r =>
        if containsPH r.text then
          { text := pyReplaceAll name r.text
            fontName := some FONT_NAME
            fontSize := some FONT_SIZE }
        else r)

/-- Accessor for the run at shape index i, paragraph index j, run index k
of a slide (none when out of range or the shape has no text frame). -/
def getRun (slide : Slide) (i j k : Nat) : Option Run :=
  match slide[i]? with
  | some (some frame) =>
    match frame[j]? with
    | some p => p[k]?
    | none => none
  | _ => none

/-- load_names (source lines 44-51): the file content is given as its
list of lines (none models FileNotFoundError, in which case the function
logs and returns the empty list). Each line is stripped; lines whose
stripped content is empty are dropped; the stripped text of the others is
kept in order. -/
def load_names (content : Option (List String)) : List String :=
  match content with
  | none => []
  | some lines =>
    lines.filterMap fun n => if pyStrip n = "" then none else some (pyStrip n)

/-! ## Effectful pipeline model

The script's side effects (files written, images produced, subprocess
invocations, console messages, process exit) are modelled by explicit
state passing. The external world is an environment: whether each probed
binary launches, the content of the names file, whether the template
opens and what its first slide holds, and the outcome of each converter
invocation and of the final zip invocation. -/

/-- Outcome of one LibreOffice conversion subprocess: the binary is
absent (subprocess.run raises FileNotFoundError) or it runs and exits
with the given code (check=True raises CalledProcessError when the code
is non-zero). -/
inductive ConvResult where
  | missing : ConvResult
  | exitCode : Nat → ConvResult
deriving DecidableEq, Repr

/-- Console messages printed by the script, one constructor per print
site. -/
inductive Msg where
  | depMissing : Msg
  | namesNotFound : Msg
  | noNames : Msg
  | processing : Nat → Nat → String → Msg
  | templateNotFound : Msg
  | loMissing : Msg
  | convFailed : String → Nat → Msg
  | dirNotFound : Msg
  | zipMissing : Msg
  | zipFailed : Msg
  | unexpectedError : Msg
deriving DecidableEq, Repr

/-- The external world: subprocess and filesystem behaviour outside the
script's control.
probe fields: none models the binary being absent for the version probe
(FileNotFoundError), some k a launch that exits with code k.
namesContent: the lines of names.txt, none when the file is missing.
template: none models PackageNotFoundError when opening invite.pptx,
some none a presentation that opens but has no slides (prs.slides[0]
raises IndexError), some (some sl) a presentation whose first slide is
sl.
conv: outcome of the n-th conversion subprocess (0-based).
zipRun: the final zip subprocess, none when the binary is absent. -/
structure Env where
  loProbe : Option Nat
  zipProbe : Option Nat
  namesContent : Option (List String)
  template : Option (Option Slide)
  conv : Nat → ConvResult
  zipRun : Option Nat

/-- The script-visible state: filesystem and console effects
accumulated so far.
docs: pptx files currently existing in the output directory.
docsWritten: trace of prs.save events (one entry per save, in order).
images: trace of images produced by successful conversions (the entry
records the source document's filename).
unlinked: trace of unlink calls performed on intermediate documents.
convCalls: number of conversion subprocesses launched so far.
rendered: trace of the rendered slides, one per processed guest. -/
structure St where
  outDirCreated : Bool := false
  docs : List String := []
  docsWritten : List String := []
  images : List String := []
  unlinked : List String := []
  convCalls : Nat := 0
  rendered : List Slide := []
  zipInvoked : Bool := false
  zipCreated : Bool := false
  logs : List Msg := []
deriving Repr

/-- The initial state: nothing written, nothing printed. -/
def st0 : St := {}

/-- check_dependency (source lines 35-41): launch the binary with
--version, discarding its output; only a FileNotFoundError (binary
absent, probe = none) triggers the error print and exit(1) (modelled as
false). The probe's exit status is never inspected. -/
def check_dependency (probe : Option Nat) : Bool :=
  match probe with
  | none => false
  | some _ => true

/-- save_and_convert (source lines 70-88): launch the converter on the
document. If the subprocess raises FileNotFoundError the error is
printed; if it exits non-zero, check=True raises CalledProcessError and
the failure is printed. Only when the subprocess returns normally (exit
code 0) does control reach the unlink of the intermediate document. -/
def save_and_convert (env : Env) (doc : String) (st : St) : St :=
  match env.conv st.convCalls with
  | ConvResult.missing =>
    { st with convCalls := st.convCalls + 1
              logs := st.logs ++ [Msg.loMissing] }
  | ConvResult.exitCode 0 =>
    { st with convCalls := st.convCalls + 1
              images := st.images ++ [doc]
              docs := st.docs.erase doc
              unlinked := st.unlinked ++ [doc] }
  | ConvResult.exitCode (n+1) =>
    { st with convCalls := st.convCalls + 1
              logs := st.logs ++ [Msg.convFailed doc (n+1)] }

/-- How one iteration of the create_invites loop ends: the loop body ran
to completion, the function returned early (template missing), or an
exception escaped (prs.slides[0] on a slideless presentation). -/
inductive LoopExit where
  | done : LoopExit
  | earlyReturn : LoopExit
  | raised : LoopExit
deriving DecidableEq, Repr

/-- Writing a file: creates it, or overwrites in place when a file of
that name already exists. -/
def writeDoc (doc : String) (docs : List String) : List String :=
  if doc ∈ docs then docs else docs ++ [doc]

/-- The loop body of create_invites (source lines 96-112), iterated over
the remaining names; i is the 1-based position printed in the progress
message, total the length of the full list. Per guest: print progress,
open the template (PackageNotFoundError prints and returns early;
a slideless presentation raises IndexError out of the function), render
the slide, save the per-guest document, then convert it. -/
def create_invites_loop (env : Env) : List String → Nat → Nat → St → St × LoopExit
  | [], _, _, st => (st, LoopExit.done)
  | name :: rest, i, total, st =>
    let st1 := { st with logs := st.logs ++ [Msg.processing i total name] }
    match env.template with
    | none =>
      ({ st1 with logs := st1.logs ++ [Msg.templateNotFound] }, LoopExit.earlyReturn)
    | some none => (st1, LoopExit.raised)
    | some (some sl) =>
      let doc := deriveFilename name
      let st2 := { st1 with rendered := st1.rendered ++ [replace_placeholder sl name]
                            docs := writeDoc doc st1.docs
                            docsWritten := st1.docsWritten ++ [doc] }
      let st3 := save_and_convert env doc st2
      create_invites_loop env rest (i+1) total st3

/-- create_invites (source lines 91-112): make the output directory,
then run the per-guest loop. -/
def create_invites (env : Env) (names : List String) (st : St) : St × LoopExit :=
  create_invites_loop env names 1 names.length { st with outDirCreated := true }

/-- compress_files (source lines 115-128): warn and return when the
directory does not exist (in this script the output directory exists
exactly when create_invites created it); otherwise launch zip, printing
on FileNotFoundError or a non-zero exit. -/
def compress_files (env : Env) (st : St) : St :=
  if st.outDirCreated then
    match env.zipRun with
    | none => { st with zipInvoked := true, logs := st.logs ++ [Msg.zipMissing] }
    | some 0 => { st with zipInvoked := true, zipCreated := true }
    | some (_+1) => { st with zipInvoked := true, logs := st.logs ++ [Msg.zipFailed] }
  else { st with logs := st.logs ++ [Msg.dirNotFound] }

/-- The script block under if name == main (source lines 131-145).
check_dependency calls exit(1) (SystemExit, not caught by the
except Exception handler) when a probe binary is absent; load_names
returning the empty list also leads to exit(1). Any Exception raised in
the try block is caught, printed as an unexpected error, and the script
then falls off the end, so the process exit code is 0. The result is the
exit code together with the final state. -/
def main_entry (env : Env) : Nat × St :=
  if check_dependency env.loProbe = false then
    (1, { st0 with logs := [Msg.depMissing] })
  else if check_dependency env.zipProbe = false then
    (1, { st0 with logs := [Msg.depMissing] })
  else
    let names := load_names env.namesContent
    let stA := if env.namesContent = none then { st0 with logs := [Msg.namesNotFound] } else st0
    if names = [] then (1, { stA with logs := stA.logs ++ [Msg.noNames] })
    else
      match create_invites env names stA with
      | (st', LoopExit.raised) => (0, { st' with logs := st'.logs ++ [Msg.unexpectedError] })
      | (st', _) => (0, compress_files env st')

/-! ## Concrete worlds used by witnesses and counterexamples -/

/-- A template slide with no shapes (rendering it is a no-op). -/
def slide0 : Slide := []

/-- A world where both binaries launch, names.txt holds one name, the
template opens on slide0, every conversion succeeds and zip succeeds. -/
def envAllOk : Env :=
  { loProbe := some 0
    zipProbe := some 0
    namesContent := some ["Ana"]
    template := some (some slide0)
    conv := fun _ => ConvResult.exitCode 0
    zipRun := some 0 }

/-- Like envAllOk, but the second conversion subprocess exits 1. -/
def envOneFail : Env :=
  { envAllOk with
      conv := fun n => if n = 1 then ConvResult.exitCode 1 else ConvResult.exitCode 0 }

/-- Like envAllOk, but every conversion subprocess exits 1. -/
def envConvFail : Env :=
  { envAllOk with conv := fun _ => ConvResult.exitCode 1 }

/-- Like envAllOk, but opening the template raises PackageNotFoundError. -/
def envTplMissing : Env :=
  { envAllOk with template := none }

/-- Like envAllOk, but the template opens with zero slides, so
prs.slides[0] raises IndexError. -/
def envNoSlides : Env :=
  { envAllOk with template := some none }

/-! ## Helper lemmas about stripping -/

theorem head_dropWhile_not {p : Char → Bool} :
    ∀ (l : List Char) (c : Char), (l.dropWhile p).head? = some c → p c = false := by
  intro l
  induction l with
  | nil => intro c h; simp [List.dropWhile] at h
  | cons a t ih =>
    intro c h
    rw [List.dropWhile_cons] at h
    by_cases hp : p a
    · simp [hp] at h; exact ih c h
    · rw [if_neg hp, List.head?_cons] at h
      injection h with h
      rw [← h]
      exact Bool.eq_false_iff.mpr hp

theorem dropWhile_eq_self_of_head {p : Char → Bool} (l : List Char)
    (h : ∀ c, l.head? = some c → p c = false) : l.dropWhile p = l := by
  cases l with
  | nil => rfl
  | cons a t =>
    have ha : p a = false := h a rfl
    simp [List.dropWhile_cons, ha]

theorem stripChars_head (l : List Char) (c : Char)
    (h : (stripChars l).head? = some c) : c.isWhitespace = false := by
  unfold stripChars at h
  rw [List.head?_reverse] at h
  set m := (l.dropWhile Char.isWhitespace).reverse.dropWhile Char.isWhitespace with hm
  have hsuff : List.IsSuffix m (l.dropWhile Char.isWhitespace).reverse :=
    List.dropWhile_suffix Char.isWhitespace
  rcases hsuff with ⟨t, ht⟩
  have hmne : m ≠ [] := by
    intro hnil
    rw [hnil] at h
    simp at h
  have : ((l.dropWhile Char.isWhitespace).reverse).getLast? = m.getLast? := by
    rw [← ht]
    exact List.getLast?_append_of_ne_nil t hmne
  rw [h, List.getLast?_reverse] at this
  exact head_dropWhile_not l c this

theorem stripChars_last (l : List Char) (c : Char)
    (h : (stripChars l).getLast? = some c) : c.isWhitespace = false := by
  unfold stripChars at h
  rw [List.getLast?_reverse] at h
  exact head_dropWhile_not (l.dropWhile Char.isWhitespace).reverse c h

theorem stripChars_idem (l : List Char) : stripChars (stripChars l) = stripChars l := by
  have h1 : (stripChars l).dropWhile Char.isWhitespace = stripChars l := by
    apply dropWhile_eq_self_of_head
    intro c hc
    exact stripChars_head l c hc
  have h2 : (stripChars l).reverse.dropWhile Char.isWhitespace = (stripChars l).reverse := by
    apply dropWhile_eq_self_of_head
    intro c hc
    rw [List.head?_reverse] at hc
    exact stripChars_last l c hc
  calc stripChars (stripChars l)
      = (((stripChars l).dropWhile Char.isWhitespace).reverse.dropWhile
          Char.isWhitespace).reverse := rfl
    _ = ((stripChars l).reverse.dropWhile Char.isWhitespace).reverse := by rw [h1]
    _ = ((stripChars l).reverse).reverse := by rw [h2]
    _ = stripChars l := List.reverse_reverse _

theorem pyStrip_idem (s : String) : pyStrip (pyStrip s) = pyStrip s := by
  unfold pyStrip
  exact congrArg String.mk (stripChars_idem s.data)

/-! ## Claims about replace_placeholder and load_names -/

/-- Claim C1: for every slide and guest name, replace_placeholder rewrites
every paragraph run whose text contains the placeholder token so that the
run's new text is the original text with every occurrence of the
placeholder replaced by the guest name, and sets that run's font family
and size to the fixed FONT_NAME and FONT_SIZE. -/
theorem replace_placeholder_rewrites_placeholder_runs
    (slide : Slide) (name : String) (i j k : Nat) (r : Run)
    (h : getRun slide i j k = some r) (hph : containsPH r.text = true) :
    getRun (replace_placeholder slide name) i j k =
      some { text := pyReplaceAll name r.text
             fontName := some FONT_NAME
             fontSize := some FONT_SIZE } := by
  unfold getRun at h ⊢
  unfold replace_placeholder
  rw [List.getElem?_map]
  cases hs : slide[i]? with
  | none => simp [hs] at h
  | some shape =>
    simp only [hs] at h
    cases shape with
    | none => simp at h
    | some frame =>
      simp only at h
      simp only [Option.map_some']
      rw [List.getElem?_map]
      cases hp : frame[j]? with
      | none => simp [hp] at h
      | some p =>
        simp only [hp] at h
        simp only [Option.map_some']
        rw [List.getElem?_map, h]
        simp [hph]

/-- Witness for C1 on a concrete slide: the single run containing the
placeholder is rewritten for guest Ana, with the fixed font applied. -/
theorem replace_placeholder_rewrites_placeholder_runs_witness :
    getRun (replace_placeholder
        [some [[{ text := "Hi \x7b\x7d!", fontName := none, fontSize := none }]]] "Ana")
      0 0 0 =
    some { text := "Hi Ana!", fontName := some FONT_NAME, fontSize := some FONT_SIZE } := by
  have h := replace_placeholder_rewrites_placeholder_runs
    [some [[{ text := "Hi \x7b\x7d!", fontName := none, fontSize := none }]]] "Ana"
    0 0 0 { text := "Hi \x7b\x7d!", fontName := none, fontSize := none } rfl (by decide)
  exact h.trans (by decide)

/-- Claim C8: for every slide and guest name, replace_placeholder leaves
every run whose text does not contain the placeholder completely
unchanged: text, font family and font size are exactly those of the
source run. -/
theorem replace_placeholder_preserves_other_runs
    (slide : Slide) (name : String) (i j k : Nat) (r : Run)
    (h : getRun slide i j k = some r) (hph : containsPH r.text = false) :
    getRun (replace_placeholder slide name) i j k = some r := by
  unfold getRun at h ⊢
  unfold replace_placeholder
  rw [List.getElem?_map]
  cases hs : slide[i]? with
  | none => simp [hs] at h
  | some shape =>
    simp only [hs] at h
    cases shape with
    | none => simp at h
    | some frame =>
      simp only at h
      simp only [Option.map_some']
      rw [List.getElem?_map]
      cases hp : frame[j]? with
      | none => simp [hp] at h
      | some p =>
        simp only [hp] at h
        simp only [Option.map_some']
        rw [List.getElem?_map, h]
        simp [hph]

/-- Witness for C8 on a concrete slide: a run without the placeholder is
returned byte-identical, fonts untouched. -/
theorem replace_placeholder_preserves_other_runs_witness :
    getRun (replace_placeholder
        [some [[{ text := "Dear guest", fontName := some "Arial", fontSize := some 100 }]]]
        "Ana") 0 0 0 =
    some { text := "Dear guest", fontName := some "Arial", fontSize := some 100 } :=
  replace_placeholder_preserves_other_runs
    [some [[{ text := "Dear guest", fontName := some "Arial", fontSize := some 100 }]]]
    "Ana" 0 0 0
    { text := "Dear guest", fontName := some "Arial", fontSize := some 100 }
    rfl (by decide)

/-- Claim C5: load_names yields exactly the stripped text of the lines
whose stripped content is non-empty, in file order with duplicates
preserved; every returned name is non-empty and free of surrounding
whitespace (stripping it again changes nothing). -/
theorem load_names_spec (lines : List String) :
    load_names (some lines) = (lines.map pyStrip).filter (fun s => s != "") ∧
    ∀ s, s ∈ load_names (some lines) → s ≠ "" ∧ pyStrip s = s := by
  have heq : load_names (some lines) = (lines.map pyStrip).filter (fun s => s != "") := by
    induction lines with
    | nil => rfl
    | cons a t ih =>
      simp only [load_names, List.filterMap_cons, List.map_cons, List.filter_cons] at ih ⊢
      by_cases h : pyStrip a = ""
      · simp [h, ih]
      · simp only [h, if_neg h]
        have : (pyStrip a != "") = true := by simp [h]
        rw [this]
        simp only [if_true]
        rw [ih]
        simp
  refine ⟨heq, ?_⟩
  intro s hs
  rw [heq] at hs
  have hmem := List.mem_filter.mp hs
  rcases hmem with ⟨hmap, hne⟩
  constructor
  · simpa using hne
  · rcases List.mem_map.mp hmap with ⟨n, _, hn⟩
    rw [← hn]
    exact pyStrip_idem n

/-- Witness for C5 on concrete file content: lines are stripped, blank
lines dropped, order kept; the first produced name is non-empty and
already stripped. -/
theorem load_names_spec_witness :
    load_names (some ["  Ana ", "   ", "Bob", "", "Ana"]) = ["Ana", "Bob", "Ana"] ∧
    ("Ana" ≠ "" ∧ pyStrip "Ana" = "Ana") := by
  have h := load_names_spec ["  Ana ", "   ", "Bob", "", "Ana"]
  exact ⟨by decide, h.2 "Ana" (by decide)⟩

/-! ## Projection lemmas for save_and_convert -/

theorem sac_convCalls (env : Env) (doc : String) (st : St) :
    (save_and_convert env doc st).convCalls = st.convCalls + 1 := by
  rcases h : env.conv st.convCalls with _ | n
  · simp [save_and_convert, h]
  · match n with
    | 0 => simp [save_and_convert, h]
    | Nat.succ m => simp [save_and_convert, h]

theorem sac_docsWritten (env : Env) (doc : String) (st : St) :
    (save_and_convert env doc st).docsWritten = st.docsWritten := by
  rcases h : env.conv st.convCalls with _ | n
  · simp [save_and_convert, h]
  · match n with
    | 0 => simp [save_and_convert, h]
    | Nat.succ m => simp [save_and_convert, h]

theorem sac_outDir (env : Env) (doc : String) (st : St) :
    (save_and_convert env doc st).outDirCreated = st.outDirCreated := by
  rcases h : env.conv st.convCalls with _ | n
  · simp [save_and_convert, h]
  · match n with
    | 0 => simp [save_and_convert, h]
    | Nat.succ m => simp [save_and_convert, h]

theorem sac_images_len (env : Env) (doc : String) (st : St) :
    (save_and_convert env doc st).images.length
      = st.images.length
        + (if env.conv st.convCalls = ConvResult.exitCode 0 then 1 else 0) := by
  rcases h : env.conv st.convCalls with _ | n
  · simp [save_and_convert, h]
  · match n with
    | 0 => simp [save_and_convert, h]
    | Nat.succ m => simp [save_and_convert, h]

theorem sac_logs_mono (env : Env) (doc : String) (st : St) :
    ∀ m ∈ st.logs, m ∈ (save_and_convert env doc st).logs := by
  intro m hm
  rcases h : env.conv st.convCalls with _ | n
  · simp [save_and_convert, h]; exact Or.inl hm
  · match n with
    | 0 => simp [save_and_convert, h]; exact hm
    | Nat.succ k => simp [save_and_convert, h]; exact Or.inl hm

theorem sac_fail_logged (env : Env) (doc : String) (st : St)
    (h : env.conv st.convCalls ≠ ConvResult.exitCode 0) :
    Msg.loMissing ∈ (save_and_convert env doc st).logs ∨
      ∃ c, Msg.convFailed doc c ∈ (save_and_convert env doc st).logs := by
  rcases hc : env.conv st.convCalls with _ | n
  · left; simp [save_and_convert, hc]
  · match n with
    | 0 => exact absurd hc h
    | Nat.succ k =>
      right
      exact ⟨k + 1, by simp [save_and_convert, hc]⟩

/-! ## Induction lemmas for the create_invites loop, template openable -/

theorem loop_exit_done (env : Env) (sl : Slide)
    (htpl : env.template = some (some sl)) :
    ∀ (names : List String) (i total : Nat) (st : St),
      (create_invites_loop env names i total st).2 = LoopExit.done := by
  intro names
  induction names with
  | nil => intro i total st; simp [create_invites_loop]
  | cons name rest ih =>
    intro i total st
    simp only [create_invites_loop, htpl]
    exact ih (i + 1) total _

theorem loop_docsWritten (env : Env) (sl : Slide)
    (htpl : env.template = some (some sl)) :
    ∀ (names : List String) (i total : Nat) (st : St),
      (create_invites_loop env names i total st).1.docsWritten
        = st.docsWritten ++ names.map deriveFilename := by
  intro names
  induction names with
  | nil => intro i total st; simp [create_invites_loop]
  | cons name rest ih =>
    intro i total st
    simp only [create_invites_loop, htpl]
    rw [ih]
    rw [sac_docsWritten]
    simp

theorem loop_convCalls (env : Env) (sl : Slide)
    (htpl : env.template = some (some sl)) :
    ∀ (names : List String) (i total : Nat) (st : St),
      (create_invites_loop env names i total st).1.convCalls
        = st.convCalls + names.length := by
  intro names
  induction names with
  | nil => intro i total st; simp [create_invites_loop]
  | cons name rest ih =>
    intro i total st
    simp only [create_invites_loop, htpl]
    rw [ih]
    rw [sac_convCalls]
    simp only [List.length_cons]
    omega

theorem loop_outDir (env : Env) (sl : Slide)
    (htpl : env.template = some (some sl)) :
    ∀ (names : List String) (i total : Nat) (st : St),
      (create_invites_loop env names i total st).1.outDirCreated
        = st.outDirCreated := by
  intro names
  induction names with
  | nil => intro i total st; simp [create_invites_loop]
  | cons name rest ih =>
    intro i total st
    simp only [create_invites_loop, htpl]
    rw [ih]
    rw [sac_outDir]

theorem loop_logs_mono (env : Env) (sl : Slide)
    (htpl : env.template = some (some sl)) :
    ∀ (names : List String) (i total : Nat) (st : St) (m : Msg),
      m ∈ st.logs → m ∈ (create_invites_loop env names i total st).1.logs := by
  intro names
  induction names with
  | nil => intro i total st m hm; simpa [create_invites_loop] using hm
  | cons name rest ih =>
    intro i total st m hm
    simp only [create_invites_loop, htpl]
    apply ih
    apply sac_logs_mono
    simp only [List.mem_append]
    exact Or.inl hm

theorem loop_images_all_success (env : Env) (sl : Slide)
    (htpl : env.template = some (some sl)) :
    ∀ (names : List String) (i total : Nat) (st : St),
      (∀ t, t < names.length → env.conv (st.convCalls + t) = ConvResult.exitCode 0) →
      (create_invites_loop env names i total st).1.images.length
        = st.images.length + names.length := by
  intro names
  induction names with
  | nil => intro i total st _; simp [create_invites_loop]
  | cons name rest ih =>
    intro i total st h
    have h0 : env.conv st.convCalls = ConvResult.exitCode 0 := by
      have := h 0 (by simp)
      simpa using this
    simp only [create_invites_loop, htpl]
    rw [ih]
    · rw [sac_images_len]
      simp only [List.length_cons]
      show st.images.length
            + (if env.conv st.convCalls = ConvResult.exitCode 0 then 1 else 0)
            + rest.length
          = st.images.length + (rest.length + 1)
      rw [h0]
      simp
      omega
    · intro t ht
      rw [sac_convCalls]
      show env.conv (st.convCalls + 1 + t) = ConvResult.exitCode 0
      have harith : st.convCalls + 1 + t = st.convCalls + (t + 1) := by omega
      rw [harith]
      exact h (t + 1) (by simpa using Nat.succ_lt_succ ht)

theorem loop_append (env : Env) (sl : Slide)
    (htpl : env.template = some (some sl)) :
    ∀ (xs ys : List String) (i total : Nat) (st : St),
      create_invites_loop env (xs ++ ys) i total st
        = create_invites_loop env ys (i + xs.length) total
            (create_invites_loop env xs i total st).1 := by
  intro xs
  induction xs with
  | nil => intro ys i total st; simp [create_invites_loop]
  | cons x xs ih =>
    intro ys i total st
    simp only [List.cons_append, create_invites_loop, htpl]
    simp only [List.append_eq]
    rw [ih]
    have : i + 1 + xs.length = i + (xs.length + 1) := by omega
    simp only [List.length_cons]
    rw [this]

/-- One failing iteration: when the conversion subprocess for a single
guest does not exit 0 (binary absent or non-zero exit), the iteration
completes normally, produces no image, still writes the per-guest
document, and logs the failure. -/
theorem loop_single_fail (env : Env) (sl : Slide)
    (htpl : env.template = some (some sl)) (g : String) (i total : Nat) (st : St)
    (hfail : env.conv st.convCalls ≠ ConvResult.exitCode 0) :
    (create_invites_loop env [g] i total st).2 = LoopExit.done ∧
    (create_invites_loop env [g] i total st).1.images.length = st.images.length ∧
    (create_invites_loop env [g] i total st).1.convCalls = st.convCalls + 1 ∧
    (create_invites_loop env [g] i total st).1.docsWritten
      = st.docsWritten ++ [deriveFilename g] ∧
    (∀ m ∈ st.logs, m ∈ (create_invites_loop env [g] i total st).1.logs) ∧
    (Msg.loMissing ∈ (create_invites_loop env [g] i total st).1.logs ∨
      ∃ c, Msg.convFailed (deriveFilename g) c
        ∈ (create_invites_loop env [g] i total st).1.logs) := by
  simp only [create_invites_loop, htpl]
  refine ⟨trivial, ?_, ?_, ?_, ?_, ?_⟩
  · rw [sac_images_len]
    show st.images.length
          + (if env.conv st.convCalls = ConvResult.exitCode 0 then 1 else 0)
        = st.images.length
    rw [if_neg hfail]
    omega
  · rw [sac_convCalls]
  · rw [sac_docsWritten]
  · intro m hm
    apply sac_logs_mono
    show m ∈ st.logs ++ [Msg.processing i total g]
    exact List.mem_append.mpr (Or.inl hm)
  · have h := sac_fail_logged env (deriveFilename g)
      { st with
          logs := st.logs ++ [Msg.processing i total g]
          rendered := st.rendered ++ [replace_placeholder sl g]
          docs := writeDoc (deriveFilename g) st.docs
          docsWritten := st.docsWritten ++ [deriveFilename g] } hfail
    exact h

/-- The whole loop on names1, one failing guest g, then names2, started
from a fresh state: no exception, one image per guest other than g, one
document written per guest, and the failure logged. The starting state is
any state with no prior conversions, images or documents. -/
theorem loop_partial_fail_general (env : Env) (sl : Slide)
    (htpl : env.template = some (some sl))
    (names1 names2 : List String) (g : String) (st : St) (total : Nat)
    (hcc : st.convCalls = 0) (him0 : st.images = []) (hdw0 : st.docsWritten = [])
    (hfail : env.conv names1.length ≠ ConvResult.exitCode 0)
    (hok : ∀ j, j ≠ names1.length → j < names1.length + names2.length + 1 →
      env.conv j = ConvResult.exitCode 0) :
    (create_invites_loop env ((names1 ++ [g]) ++ names2) 1 total st).2
      = LoopExit.done ∧
    (create_invites_loop env ((names1 ++ [g]) ++ names2) 1 total st).1.images.length
      = names1.length + names2.length ∧
    (create_invites_loop env ((names1 ++ [g]) ++ names2) 1 total st).1.docsWritten.length
      = names1.length + names2.length + 1 ∧
    (Msg.loMissing
        ∈ (create_invites_loop env ((names1 ++ [g]) ++ names2) 1 total st).1.logs ∨
      ∃ c, Msg.convFailed (deriveFilename g) c
        ∈ (create_invites_loop env ((names1 ++ [g]) ++ names2) 1 total st).1.logs) := by
  rw [loop_append env sl htpl (names1 ++ [g]) names2,
      loop_append env sl htpl names1 [g]]
  have hargs1 : ∀ t, t < names1.length →
      env.conv (st.convCalls + t) = ConvResult.exitCode 0 := by
    intro t ht
    rw [hcc, Nat.zero_add]
    exact hok t (by omega) (by omega)
  have hst1cc : ((create_invites_loop env names1 1 total st).1).convCalls
      = names1.length := by
    rw [loop_convCalls env sl htpl, hcc, Nat.zero_add]
  have hst1img : ((create_invites_loop env names1 1 total st).1).images.length
      = names1.length := by
    rw [loop_images_all_success env sl htpl names1 1 total st hargs1, him0]
    simp
  have hst1dw : ((create_invites_loop env names1 1 total st).1).docsWritten.length
      = names1.length := by
    rw [loop_docsWritten env sl htpl, hdw0]
    simp
  obtain ⟨hge, hgim, hgcc, hgdw, hglogmono, hglog⟩ :=
    loop_single_fail env sl htpl g (1 + names1.length) total
      ((create_invites_loop env names1 1 total st).1)
      (by rw [hst1cc]; exact hfail)
  set stG := (create_invites_loop env [g] (1 + names1.length) total
      (create_invites_loop env names1 1 total st).1).1 with hstG
  have hGcc : stG.convCalls = names1.length + 1 := by
    rw [hstG, hgcc, hst1cc]
  have hargs2 : ∀ t, t < names2.length →
      env.conv (stG.convCalls + t) = ConvResult.exitCode 0 := by
    intro t ht
    rw [hGcc]
    exact hok (names1.length + 1 + t) (by omega) (by omega)
  refine ⟨?_, ?_, ?_, ?_⟩
  · exact loop_exit_done env sl htpl names2 _ total _
  · rw [loop_images_all_success env sl htpl names2 _ total _ hargs2]
    rw [hstG, hgim, hst1img]
  · rw [loop_docsWritten env sl htpl]
    rw [List.length_append, List.length_map]
    rw [hstG, hgdw, List.length_append]
    rw [hst1dw]
    simp
    omega
  · rcases hglog with hL | ⟨c, hc⟩
    · left
      apply loop_logs_mono env sl htpl names2 _ total stG
      rw [hstG]
      exact hL
    · right
      exact ⟨c, by
        apply loop_logs_mono env sl htpl names2 _ total stG
        rw [hstG]
        exact hc⟩

/-- Claim C2: when the converter fails (non-zero exit or absent binary)
for exactly the guest at position names1.length and succeeds for all
other guests, the batch completes without raising, the failure is
logged, every guest is still processed (one document written per guest),
and one image per remaining guest is produced: N-1 images in total. -/
theorem create_invites_partial_failure (env : Env) (sl : Slide)
    (names1 names2 : List String) (g : String)
    (htpl : env.template = some (some sl))
    (hfail : env.conv names1.length ≠ ConvResult.exitCode 0)
    (hok : ∀ j, j < (names1 ++ g :: names2).length → j ≠ names1.length →
      env.conv j = ConvResult.exitCode 0) :
    (create_invites env (names1 ++ g :: names2) st0).2 = LoopExit.done ∧
    (create_invites env (names1 ++ g :: names2) st0).1.images.length
      = names1.length + names2.length ∧
    (create_invites env (names1 ++ g :: names2) st0).1.docsWritten.length
      = (names1 ++ g :: names2).length ∧
    (Msg.loMissing ∈ (create_invites env (names1 ++ g :: names2) st0).1.logs ∨
      ∃ c, Msg.convFailed (deriveFilename g) c
        ∈ (create_invites env (names1 ++ g :: names2) st0).1.logs) := by
  have hlen : (names1 ++ g :: names2).length
      = names1.length + names2.length + 1 := by
    simp only [List.length_append, List.length_cons]
    omega
  have hok' : ∀ j, j ≠ names1.length →
      j < names1.length + names2.length + 1 → env.conv j = ConvResult.exitCode 0 := by
    intro j hne hlt
    exact hok j (by omega) hne
  have hsplit : names1 ++ g :: names2 = (names1 ++ [g]) ++ names2 := by simp
  simp only [create_invites]
  rw [hsplit]
  obtain ⟨he, him, hdw, hlog⟩ :=
    loop_partial_fail_general env sl htpl names1 names2 g
      { st0 with outDirCreated := true } ((names1 ++ [g]) ++ names2).length
      rfl rfl rfl hfail hok'
  refine ⟨he, him, ?_, hlog⟩
  rw [hdw]
  simp only [List.length_append, List.length_cons, List.length_nil]
  omega

/-- Witness for C2: three guests, the second guest's conversion exits 1,
the others succeed; the run completes with 2 images and 3 documents
written, and the failure is logged. -/
theorem create_invites_partial_failure_witness :
    (create_invites envOneFail (["Ana"] ++ "Bob" :: ["Cyn"]) st0).2 = LoopExit.done ∧
    (create_invites envOneFail (["Ana"] ++ "Bob" :: ["Cyn"]) st0).1.images.length = 2 ∧
    (create_invites envOneFail (["Ana"] ++ "Bob" :: ["Cyn"]) st0).1.docsWritten.length = 3 ∧
    (Msg.loMissing ∈ (create_invites envOneFail (["Ana"] ++ "Bob" :: ["Cyn"]) st0).1.logs ∨
      ∃ c, Msg.convFailed (deriveFilename "Bob") c
        ∈ (create_invites envOneFail (["Ana"] ++ "Bob" :: ["Cyn"]) st0).1.logs) :=
  create_invites_partial_failure envOneFail slide0 ["Ana"] ["Cyn"] "Bob"
    rfl (by decide) (by decide)

/-- Claim C3 counterexample: the converter exits 1 for the document, and
save_and_convert neither attempts the unlink nor removes the document:
the intermediate file survives a failed conversion, so deletion is not
attempted regardless of the conversion outcome. -/
theorem save_and_convert_failure_keeps_doc_cex :
    envConvFail.conv ({ st0 with docs := ["d.pptx"] } : St).convCalls
      = ConvResult.exitCode 1 ∧
    (save_and_convert envConvFail "d.pptx" { st0 with docs := ["d.pptx"] }).unlinked
      = [] ∧
    (save_and_convert envConvFail "d.pptx" { st0 with docs := ["d.pptx"] }).docs
      = ["d.pptx"] := by
  decide

/-- Claim C3 amended: save_and_convert attempts deletion of the
intermediate document exactly when the converter subprocess exits 0; on
a FileNotFoundError or a non-zero exit the unlink call is never reached
and the document is left in place. -/
theorem save_and_convert_deletion_policy (env : Env) (doc : String) (st : St) :
    (save_and_convert env doc st).unlinked
      = st.unlinked
        ++ (if env.conv st.convCalls = ConvResult.exitCode 0 then [doc] else []) ∧
    (save_and_convert env doc st).docs
      = (if env.conv st.convCalls = ConvResult.exitCode 0
         then st.docs.erase doc else st.docs) := by
  rcases h : env.conv st.convCalls with _ | n
  · simp [save_and_convert, h]
  · match n with
    | 0 => simp [save_and_convert, h]
    | Nat.succ m => simp [save_and_convert, h]

/-- Helper: when the template cannot be opened, create_invites makes the
output directory, then the first iteration prints and returns before
saving any document or invoking the converter, and no exception escapes. -/
theorem create_invites_template_none (env : Env) (names : List String) (st : St)
    (htpl : env.template = none) :
    (create_invites env names st).1.images = st.images ∧
    (create_invites env names st).1.docs = st.docs ∧
    (create_invites env names st).1.docsWritten = st.docsWritten ∧
    (create_invites env names st).1.convCalls = st.convCalls ∧
    (create_invites env names st).1.outDirCreated = true ∧
    (create_invites env names st).2 ≠ LoopExit.raised := by
  cases names with
  | nil => simp [create_invites, create_invites_loop]
  | cons n rest => simp [create_invites, create_invites_loop, htpl]

/-- Claim C6: if the template cannot be opened, the run produces zero
images, never invokes the converter, writes no per-guest document, and
the batch is aborted without an exception escaping. -/
theorem create_invites_template_missing_spec (env : Env) (names : List String)
    (htpl : env.template = none) :
    (create_invites env names st0).1.images = [] ∧
    (create_invites env names st0).1.docsWritten = [] ∧
    (create_invites env names st0).1.docs = [] ∧
    (create_invites env names st0).1.convCalls = 0 ∧
    (create_invites env names st0).2 ≠ LoopExit.raised := by
  obtain ⟨hi, hd, hw, hc, _, hr⟩ := create_invites_template_none env names st0 htpl
  exact ⟨hi, hw, hd, hc, hr⟩

/-- Witness for C6 at a concrete world with a missing template and one
guest. -/
theorem create_invites_template_missing_spec_witness :
    (create_invites envTplMissing ["Ana"] st0).1.images = [] ∧
    (create_invites envTplMissing ["Ana"] st0).1.docsWritten = [] ∧
    (create_invites envTplMissing ["Ana"] st0).1.docs = [] ∧
    (create_invites envTplMissing ["Ana"] st0).1.convCalls = 0 ∧
    (create_invites envTplMissing ["Ana"] st0).2 ≠ LoopExit.raised :=
  create_invites_template_missing_spec envTplMissing ["Ana"] rfl

/-- Claim C7 counterexample: the filename derivation is not injective,
so an image does not correspond to exactly one guest name via its
filename: the distinct guests "a b" and "a-b" receive identical
filenames, and a run over both yields two images with the same name. -/
theorem image_filename_collision_cex :
    deriveFilename "a b" = deriveFilename "a-b" ∧ ("a b" : String) ≠ "a-b" ∧
    (create_invites envAllOk ["a b", "a-b"] st0).1.images
      = [deriveFilename "a b", deriveFilename "a b"] := by
  decide

/-- Claim C7 amended: each written per-guest document (hence each
produced image) gets its filename deterministically from its guest name
by replacing spaces with dashes and prepending the fixed non-ASCII label
prefix; the derivation is not injective, so distinct guest names can
share a filename. -/
theorem create_invites_filename_derivation (env : Env) (sl : Slide)
    (names : List String) (htpl : env.template = some (some sl)) :
    (create_invites env names st0).1.docsWritten = names.map deriveFilename := by
  unfold create_invites
  rw [loop_docsWritten env sl htpl]
  show ({ st0 with outDirCreated := true } : St).docsWritten ++ names.map deriveFilename
      = names.map deriveFilename
  simp [st0]

/-- Witness for the amended C7: the document written for guest
"Ana Lee" carries the derived filename. -/
theorem create_invites_filename_derivation_witness :
    (create_invites envAllOk ["Ana Lee"] st0).1.docsWritten
      = ["دعوت‌نامه-Ana-Lee.pptx"] := by
  have h := create_invites_filename_derivation envAllOk slide0 ["Ana Lee"] rfl
  exact h.trans (by decide)

/-- Claim C9: check_dependency reports failure (print and exit 1)
exactly when launching the probe raises FileNotFoundError (probe =
none); a binary that launches and exits with any code k, zero or not,
passes, because the probe's exit status is never inspected. -/
theorem check_dependency_passes_iff_launchable (k : Nat) :
    check_dependency none = false ∧ check_dependency (some k) = true :=
  ⟨rfl, rfl⟩

/-- Claim C4 counterexample: in a world where both binaries are present,
one name is loaded, and the template opens with zero slides, the
IndexError from prs.slides[0] reaches the top-level handler, which
prints the unexpected-error message, and the process exits 0 — not 1 as
the claim states for an unhandled exception. -/
theorem main_swallows_exception_cex :
    (main_entry envNoSlides).1 = 0 ∧ (main_entry envNoSlides).1 ≠ 1 ∧
    Msg.unexpectedError ∈ (main_entry envNoSlides).2.logs := by
  decide

/-- Claim C4 amended: the process exits 1 exactly when a dependency
probe binary is absent or no names are loaded; in every other world —
including per-guest conversion failures and exceptions caught by the
top-level handler — it exits 0. -/
theorem main_exit_codes (env : Env) :
    (main_entry env).1
      = if env.loProbe = none ∨ env.zipProbe = none
           ∨ load_names env.namesContent = []
        then 1 else 0 := by
  by_cases h1 : env.loProbe = none
  · have hc : check_dependency env.loProbe = false := by rw [h1]; rfl
    rw [if_pos (Or.inl h1)]
    simp [main_entry, hc]
  · have hc1 : check_dependency env.loProbe = true := by
      cases hp : env.loProbe with
      | none => exact absurd hp h1
      | some k => rfl
    by_cases h2 : env.zipProbe = none
    · have hc : check_dependency env.zipProbe = false := by rw [h2]; rfl
      rw [if_pos (Or.inr (Or.inl h2))]
      simp [main_entry, hc1, hc]
    · have hc2 : check_dependency env.zipProbe = true := by
        cases hp : env.zipProbe with
        | none => exact absurd hp h2
        | some k => rfl
      by_cases h3 : load_names env.namesContent = []
      · rw [if_pos (Or.inr (Or.inr h3))]
        simp [main_entry, hc1, hc2, h3]
      · rw [if_neg (by simp [h1, h2, h3])]
        simp only [main_entry, hc1, hc2, Bool.true_eq_false, if_false, h3]
        rcases hci : create_invites env (load_names env.namesContent)
            (if env.namesContent = none then { st0 with logs := [Msg.namesNotFound] }
             else st0) with ⟨st', e⟩
        cases e <;> rfl

/-- Claim C10: when both binaries are present, names are loaded, the
template cannot be opened, and the zip subprocess succeeds, the run
still creates the output directory, create_invites returns early with
zero images, compress_files is nevertheless invoked on the directory and
produces the archive, and the process exits 0. -/
theorem template_missing_still_archives (env : Env)
    (hlo : env.loProbe ≠ none) (hzip : env.zipProbe ≠ none)
    (hnames : load_names env.namesContent ≠ [])
    (htpl : env.template = none) (hz : env.zipRun = some 0) :
    (main_entry env).1 = 0 ∧
    (main_entry env).2.outDirCreated = true ∧
    (main_entry env).2.zipInvoked = true ∧
    (main_entry env).2.zipCreated = true ∧
    (main_entry env).2.images = [] := by
  have hc1 : check_dependency env.loProbe = true := by
    cases hp : env.loProbe with
    | none => exact absurd hp hlo
    | some k => rfl
  have hc2 : check_dependency env.zipProbe = true := by
    cases hp : env.zipProbe with
    | none => exact absurd hp hzip
    | some k => rfl
  have hcont : env.namesContent ≠ none := by
    intro h
    apply hnames
    rw [h]
    rfl
  simp only [main_entry, hc1, hc2, Bool.true_eq_false, if_false, if_neg hcont]
  rw [if_neg hnames]
  rcases hci : create_invites env (load_names env.namesContent) st0 with ⟨st', e⟩
  have hfacts := create_invites_template_none env (load_names env.namesContent) st0 htpl
  rw [hci] at hfacts
  obtain ⟨hi, hd, hw, hc, ho, hr⟩ := hfacts
  replace hi : st'.images = st0.images := hi
  replace ho : st'.outDirCreated = true := ho
  replace hr : e ≠ LoopExit.raised := hr
  cases e with
  | raised => exact absurd rfl hr
  | done =>
    refine ⟨rfl, ?_, ?_, ?_, ?_⟩ <;> simp [compress_files, ho, hz, hi, st0]
  | earlyReturn =>
    refine ⟨rfl, ?_, ?_, ?_, ?_⟩ <;> simp [compress_files, ho, hz, hi, st0]

/-- Witness for C10 at a concrete world with a missing template: the
archive is still produced and the exit code is 0. -/
theorem template_missing_still_archives_witness :
    (main_entry envTplMissing).1 = 0 ∧
    (main_entry envTplMissing).2.outDirCreated = true ∧
    (main_entry envTplMissing).2.zipInvoked = true ∧
    (main_entry envTplMissing).2.zipCreated = true ∧
    (main_entry envTplMissing).2.images = [] :=
  template_missing_still_archives envTplMissing (by decide) (by decide)
    (by decide) rfl rfl

end InviteGen
